import Mathlib

/-!
Shallow embedding of the Raft core data model from
`src/clustering/generic/raft_core.hpp` (RethinkDB), together with proofs of the
specification claims about it.

Modelling conventions:
* `raft_member_id_t` (a UUID in the source) is modelled as `Nat`: an opaque
  identity with decidable equality; `std::set<raft_member_id_t>` becomes
  `Finset Nat`.
* `raft_term_t` and `raft_log_index_t` are `uint64_t` typedefs used as
  unbounded counters by the code in scope (no arithmetic that can overflow in
  the modelled operations), so they are modelled as `Nat`.
* `boost::optional` becomes `Option`; a nil `raft_member_id_t` (the
  default-constructed nil UUID used for "no vote") is modelled as `none` of
  `Option raft_member_id_t`.
* `guarantee(...)` assertion failures (contract violations) are modelled by
  returning `none` from an `Option`-valued function: a call that would trip a
  guarantee in C++ yields `none` in the embedding.
* `std::deque` becomes `List`, with `push_back` as appending at the right end.
-/

namespace RaftCore

/-- `raft_member_id_t` from raft_core.hpp: an opaque unique identity (UUID in
the source), modelled as `Nat`. -/
abbrev raft_member_id_t := Nat

/-- `raft_config_t` from raft_core.hpp: the voting and non-voting member sets
of a Raft cluster. -/
structure raft_config_t where
  voting_members : Finset raft_member_id_t
  non_voting_members : Finset raft_member_id_t
  deriving DecidableEq

namespace raft_config_t

/-- `raft_config_t::get_all_members`: all members, voting and non-voting. -/
def get_all_members (c : raft_config_t) : Finset raft_member_id_t :=
  c.voting_members ∪ c.non_voting_members

/-- `raft_config_t::is_member`: `true` if `member` is a voting or non-voting
member. -/
def is_member (c : raft_config_t) (member : raft_member_id_t) : Bool :=
  decide (member ∈ c.voting_members) || decide (member ∈ c.non_voting_members)

/-- `raft_config_t::is_quorum`: counts, over the given set, how many of its
elements are voting members (`votes += voting_members.count(m)` in the loop),
then returns `votes * 2 > voting_members.size()`. -/
def is_quorum (c : raft_config_t) (members : Finset raft_member_id_t) : Bool :=
  let votes : Nat := members.sum fun m => if m ∈ c.voting_members then 1 else 0
  decide (votes * 2 > c.voting_members.card)

/-- `raft_config_t::is_valid_leader`: `true` if the member is a voting
member. -/
def is_valid_leader (c : raft_config_t) (member : raft_member_id_t) : Bool :=
  decide (member ∈ c.voting_members)

end raft_config_t

/-- `raft_complex_config_t` from raft_core.hpp: either a regular configuration
(`new_config` empty) or a joint consensus of an old configuration `config` and
a new configuration `new_config`. -/
structure raft_complex_config_t where
  config : raft_config_t
  new_config : Option raft_config_t
  deriving DecidableEq

namespace raft_complex_config_t

/-- `raft_complex_config_t::is_joint_consensus`: whether `new_config` holds a
value. -/
def is_joint_consensus (c : raft_complex_config_t) : Bool :=
  c.new_config.isSome

/-- `raft_complex_config_t::get_all_members`: the old configuration's members,
united with the new configuration's members when in joint consensus. -/
def get_all_members (c : raft_complex_config_t) : Finset raft_member_id_t :=
  match c.new_config with
  | some nc => c.config.get_all_members ∪ nc.get_all_members
  | none => c.config.get_all_members

/-- `raft_complex_config_t::is_member`: member of the old configuration, or of
the new configuration when in joint consensus. -/
def is_member (c : raft_complex_config_t) (member : raft_member_id_t) : Bool :=
  match c.new_config with
  | some nc => c.config.is_member member || nc.is_member member
  | none => c.config.is_member member

/-- `raft_complex_config_t::is_quorum`: in joint consensus, separate
majorities from both the old and the new configuration are required; otherwise
just the old configuration's quorum. -/
def is_quorum (c : raft_complex_config_t)
    (members : Finset raft_member_id_t) : Bool :=
  match c.new_config with
  | some nc => c.config.is_quorum members && nc.is_quorum members
  | none => c.config.is_quorum members

/-- `raft_complex_config_t::is_valid_leader`: any server from either
configuration may serve as leader. -/
def is_valid_leader (c : raft_complex_config_t)
    (member : raft_member_id_t) : Bool :=
  match c.new_config with
  | some nc => c.config.is_valid_leader member || nc.is_valid_leader member
  | none => c.config.is_valid_leader member

end raft_complex_config_t

/-- `raft_log_entry_type_t` from raft_core.hpp. -/
inductive raft_log_entry_type_t where
  | regular
  | config
  | noop
  deriving DecidableEq

/-- `raft_log_entry_t<state_t>` from raft_core.hpp, parameterised by the
change payload type (`state_t::change_t` in the source). -/
structure raft_log_entry_t (change_t : Type) where
  type : raft_log_entry_type_t
  term : Nat
  change : Option change_t
  config : Option raft_complex_config_t
  deriving DecidableEq

/-- `raft_log_t<state_t>` from raft_core.hpp: a slice of the Raft log anchored
at `prev_index`/`prev_term`, with `entries` stored after that anchor. -/
structure raft_log_t (change_t : Type) where
  prev_index : Nat
  prev_term : Nat
  entries : List (raft_log_entry_t change_t)
  deriving DecidableEq

namespace raft_log_t

variable {change_t : Type}

/-- `raft_log_t::get_latest_index`: `prev_index + entries.size()`. -/
def get_latest_index (log : raft_log_t change_t) : Nat :=
  log.prev_index + log.entries.length

/-- `raft_log_t::get_entry_ref`: the entry stored at the given index, namely
`entries[index - prev_index - 1]`; the two `guarantee`s
(`index > prev_index` and `index <= get_latest_index()`) become the range
check. -/
def get_entry_ref (log : raft_log_t change_t) (index : Nat) :
    Option (raft_log_entry_t change_t) :=
  if log.prev_index < index ∧ index ≤ log.get_latest_index then
    log.entries[index - log.prev_index - 1]?
  else
    none

/-- `raft_log_t::get_entry_term`: `prev_term` at `prev_index`, otherwise the
term of the entry stored at the index; the two `guarantee`s become the range
check. -/
def get_entry_term (log : raft_log_t change_t) (index : Nat) : Option Nat :=
  if log.prev_index ≤ index ∧ index ≤ log.get_latest_index then
    if index = log.prev_index then
      some log.prev_term
    else
      (log.get_entry_ref index).map raft_log_entry_t.term
  else
    none

/-- `raft_log_t::delete_entries_from`: deletes the entry at the given index
and all entries after it (`entries.erase(begin + (index - prev_index - 1),
end)`), keeping the first `index - prev_index - 1` entries. -/
def delete_entries_from (log : raft_log_t change_t) (index : Nat) :
    Option (raft_log_t change_t) :=
  if log.prev_index < index ∧ index ≤ log.get_latest_index then
    some { log with entries := log.entries.take (index - log.prev_index - 1) }
  else
    none

/-- `raft_log_t::delete_entries_to`: deletes the entry at the given index and
all entries before it (`entries.erase(begin, begin + (index - prev_index))`),
then sets `prev_index` to the index and `prev_term` to the term the log
recorded there. -/
def delete_entries_to (log : raft_log_t change_t) (index : Nat) :
    Option (raft_log_t change_t) :=
  if log.prev_index < index ∧ index ≤ log.get_latest_index then
    (log.get_entry_term index).map fun index_term =>
      { prev_index := index
        prev_term := index_term
        entries := log.entries.drop (index - log.prev_index) }
  else
    none

/-- `raft_log_t::append`: `entries.push_back(entry)`. -/
def append (log : raft_log_t change_t) (entry : raft_log_entry_t change_t) :
    raft_log_t change_t :=
  { log with entries := log.entries ++ [entry] }

end raft_log_t

/-- `raft_persistent_state_t<state_t>` from raft_core.hpp: the durable
variables of a Raft member. A nil `voted_for` UUID is modelled as `none`. -/
structure raft_persistent_state_t (state_t change_t : Type) where
  current_term : Nat
  voted_for : Option raft_member_id_t
  snapshot_state : state_t
  snapshot_config : raft_complex_config_t
  log : raft_log_t change_t

/-- Modelled from the spec: `raft_persistent_state_t::make_initial` is only
declared in raft_core.hpp (its body lives in an implementation file that is
not among the sources). Per spec section 4.1 it returns term 0, nil
`voted_for`, the given snapshot state, a single (non-joint) complex
configuration holding the given configuration, and an empty log based at
index 0 with term 0. -/
def raft_persistent_state_t.make_initial {state_t change_t : Type}
    (initial_state : state_t) (initial_config : raft_config_t) :
    raft_persistent_state_t state_t change_t :=
  { current_term := 0
    voted_for := none
    snapshot_state := initial_state
    snapshot_config := { config := initial_config, new_config := none }
    log := { prev_index := 0, prev_term := 0, entries := [] } }

/-! ### Helper lemmas -/

/-- The vote count computed by `raft_config_t::is_quorum`'s loop equals the
cardinality of the intersection with the voting set. -/
theorem votes_eq_card_inter (S V : Finset raft_member_id_t) :
    (S.sum fun m => if m ∈ V then 1 else 0) = (S ∩ V).card := by
  rw [← Finset.sum_filter, Finset.filter_mem_eq_inter,
    Finset.card_eq_sum_ones]

/-! ### Sample values used by witnesses -/

/-- A configuration with an empty voting set and one non-voting member. -/
def emptyVotingConfig : raft_config_t :=
  { voting_members := ∅, non_voting_members := {7} }

/-- A three-voter configuration. -/
def abcConfig : raft_config_t :=
  { voting_members := {1, 2, 3}, non_voting_members := {4} }

/-- A two-voter configuration overlapping `abcConfig`. -/
def cdConfig : raft_config_t :=
  { voting_members := {3, 5}, non_voting_members := ∅ }

/-- A sample member set. -/
def sampleSet : Finset raft_member_id_t := {1, 3, 4, 9}

/-- A joint consensus of `abcConfig` and `cdConfig`. -/
def jointConfig : raft_complex_config_t :=
  { config := abcConfig, new_config := some cdConfig }

/-- A single (non-joint) complex configuration holding `abcConfig`. -/
def singleConfig : raft_complex_config_t :=
  { config := abcConfig, new_config := none }

/-- Reading a log entry strictly inside the range is a plain list lookup. -/
theorem get_entry_ref_in_range {change_t : Type} (log : raft_log_t change_t)
    (i : Nat) (h1 : log.prev_index < i) (h2 : i ≤ log.get_latest_index) :
    log.get_entry_ref i = log.entries[i - log.prev_index - 1]? := by
  simp [raft_log_t.get_entry_ref, h1, h2]

/-- Reading the anchor index yields the anchor term. -/
theorem get_entry_term_at_prev {change_t : Type} (log : raft_log_t change_t) :
    log.get_entry_term log.prev_index = some log.prev_term := by
  simp [raft_log_t.get_entry_term, raft_log_t.get_latest_index]

/-- Reading a term strictly inside the range is a plain list lookup. -/
theorem get_entry_term_in_range {change_t : Type} (log : raft_log_t change_t)
    (i : Nat) (h1 : log.prev_index < i) (h2 : i ≤ log.get_latest_index) :
    log.get_entry_term i =
      (log.entries[i - log.prev_index - 1]?).map raft_log_entry_t.term := by
  have hne : i ≠ log.prev_index := by omega
  simp [raft_log_t.get_entry_term, Nat.le_of_lt h1, h2, hne,
    get_entry_ref_in_range log i h1 h2]

/-- A noop log entry with the given term. -/
def nEntry (t : Nat) : raft_log_entry_t Unit :=
  { type := raft_log_entry_type_t.noop, term := t, change := none,
    config := none }

/-- A sample log based at index 1 with entries at indices 2, 3, 4. -/
def sampleLog : raft_log_t Unit :=
  { prev_index := 1, prev_term := 1,
    entries := [nEntry 2, nEntry 2, nEntry 3] }

/-- The log obtained from `sampleLog` by `delete_entries_to 3`. -/
def sampleLogTo3 : raft_log_t Unit :=
  { prev_index := 3, prev_term := 2, entries := [nEntry 3] }

/-! ### Claim theorems -/

/-- Claim C1: for every `raft_config_t` and every finite set `S` of member
ids, `is_quorum S` returns `true` iff `2 * |S ∩ voting_members|` exceeds
`|voting_members|`; in particular, with an empty voting set `is_quorum`
returns `false` on every set, including the empty one. -/
theorem config_is_quorum_iff_majority (c : raft_config_t)
    (S : Finset raft_member_id_t) :
    (c.is_quorum S = true ↔
      2 * (S ∩ c.voting_members).card > c.voting_members.card) ∧
    (c.voting_members = ∅ → c.is_quorum S = false) := by
  constructor
  · unfold raft_config_t.is_quorum
    rw [votes_eq_card_inter]
    simp [Nat.mul_comm]
  · intro h
    unfold raft_config_t.is_quorum
    rw [votes_eq_card_inter, h]
    simp

/-- Witness for C1, at the configuration whose voting set is empty. -/
theorem config_is_quorum_iff_majority_witness :
    emptyVotingConfig.is_quorum sampleSet = false :=
  (config_is_quorum_iff_majority emptyVotingConfig sampleSet).2 rfl

/-- Claim C8: `is_quorum S` equals `is_quorum (S ∩ voting_members)`: members
outside the voting set never change the quorum decision. -/
theorem config_is_quorum_inter_voting (c : raft_config_t)
    (S : Finset raft_member_id_t) :
    c.is_quorum S = c.is_quorum (S ∩ c.voting_members) := by
  unfold raft_config_t.is_quorum
  rw [votes_eq_card_inter, votes_eq_card_inter, Finset.inter_assoc,
    Finset.inter_self]

/-- Claim C2: a joint-consensus `raft_complex_config_t` has a quorum iff both
the old and the new configuration have one; a single configuration's quorum is
exactly the held configuration's quorum. -/
theorem complex_is_quorum_spec (cc : raft_complex_config_t)
    (S : Finset raft_member_id_t) :
    (∀ nc, cc.new_config = some nc →
      (cc.is_quorum S = true ↔
        (cc.config.is_quorum S = true ∧ nc.is_quorum S = true))) ∧
    (cc.new_config = none → cc.is_quorum S = cc.config.is_quorum S) := by
  obtain ⟨cfg, onc⟩ := cc
  cases onc with
  | some nc =>
    simp [raft_complex_config_t.is_quorum]
  | none =>
    simp [raft_complex_config_t.is_quorum]

/-- Witness for C2, at the joint configuration `jointConfig` and the set
`sampleSet`: both component quorums hold there. -/
theorem complex_is_quorum_spec_witness :
    jointConfig.is_quorum sampleSet = true ↔
      (jointConfig.config.is_quorum sampleSet = true ∧
        cdConfig.is_quorum sampleSet = true) :=
  (complex_is_quorum_spec jointConfig sampleSet).1 cdConfig rfl

/-- Claim C6: a joint `raft_complex_config_t`'s members are the union of the
old and new configurations' members, and a valid leader is a valid leader of
either; a single configuration reduces to the held configuration, whose valid
leaders are exactly its voting members. -/
theorem complex_members_and_leader_spec (cc : raft_complex_config_t)
    (m : raft_member_id_t) :
    (∀ nc, cc.new_config = some nc →
      cc.get_all_members = cc.config.get_all_members ∪ nc.get_all_members ∧
      (cc.is_valid_leader m = true ↔
        (cc.config.is_valid_leader m = true ∨ nc.is_valid_leader m = true))) ∧
    (cc.new_config = none →
      cc.get_all_members = cc.config.get_all_members ∧
      (cc.is_valid_leader m = true ↔ m ∈ cc.config.voting_members)) := by
  obtain ⟨cfg, onc⟩ := cc
  cases onc with
  | some nc =>
    simp [raft_complex_config_t.get_all_members,
      raft_complex_config_t.is_valid_leader, raft_config_t.is_valid_leader]
  | none =>
    simp [raft_complex_config_t.get_all_members,
      raft_complex_config_t.is_valid_leader, raft_config_t.is_valid_leader]

/-- Witness for C6, at the joint configuration `jointConfig` and member 5. -/
theorem complex_members_and_leader_spec_witness :
    jointConfig.get_all_members =
      jointConfig.config.get_all_members ∪ cdConfig.get_all_members ∧
    (jointConfig.is_valid_leader 5 = true ↔
      (jointConfig.config.is_valid_leader 5 = true ∨
        cdConfig.is_valid_leader 5 = true)) :=
  (complex_members_and_leader_spec jointConfig 5).1 cdConfig rfl

/-- Claim C3: for `prev_index ≤ i ≤ get_latest_index`, `get_entry_term i` is
defined and returns `prev_term` at `i = prev_index` and the term of the entry
stored at `i` otherwise; outside that range it is a contract violation
(modelled as `none`). -/
theorem log_get_entry_term_spec {change_t : Type} (log : raft_log_t change_t)
    (i : Nat) :
    (log.prev_index ≤ i → i ≤ log.get_latest_index →
      (i = log.prev_index → log.get_entry_term i = some log.prev_term) ∧
      (log.prev_index < i →
        log.get_entry_term i =
          (log.get_entry_ref i).map raft_log_entry_t.term ∧
        (log.get_entry_ref i).isSome = true)) ∧
    (¬ (log.prev_index ≤ i ∧ i ≤ log.get_latest_index) →
      log.get_entry_term i = none) := by
  constructor
  · intro h1 h2
    constructor
    · intro he
      subst he
      simp [raft_log_t.get_entry_term, h2]
    · intro hlt
      have hne : i ≠ log.prev_index := by omega
      have hidx : i - log.prev_index - 1 < log.entries.length := by
        unfold raft_log_t.get_latest_index at h2
        omega
      constructor
      · simp [raft_log_t.get_entry_term, h1, h2, hne]
      · simp [raft_log_t.get_entry_ref, hlt, h2,
          List.getElem?_eq_getElem hidx]
  · intro h
    simp [raft_log_t.get_entry_term, h]

/-- Witness for C3, reading index 3 of `sampleLog` (in range, above
`prev_index`). -/
theorem log_get_entry_term_spec_witness :
    sampleLog.get_entry_term 3 =
      (sampleLog.get_entry_ref 3).map raft_log_entry_t.term ∧
    (sampleLog.get_entry_ref 3).isSome = true :=
  ((log_get_entry_term_spec sampleLog 3).1 (by decide) (by decide)).2
    (by decide)

/-- Claim C4: for `prev_index < i ≤ get_latest_index`, `delete_entries_to i`
succeeds, sets `prev_index` to `i` and `prev_term` to the term the log
previously recorded at `i`, and removes exactly the entries at indices `≤ i`
(the surviving entry list is the old one with its first `i - prev_index`
entries dropped); calling it past `get_latest_index` is a contract violation
(modelled as `none`). -/
theorem log_delete_entries_to_spec {change_t : Type}
    (log : raft_log_t change_t) (i : Nat) :
    (log.prev_index < i → i ≤ log.get_latest_index →
      (log.delete_entries_to i).isSome = true ∧
      (log.delete_entries_to i).map raft_log_t.prev_index = some i ∧
      (log.delete_entries_to i).map raft_log_t.prev_term =
        log.get_entry_term i ∧
      (log.delete_entries_to i).map raft_log_t.entries =
        some (log.entries.drop (i - log.prev_index))) ∧
    (log.get_latest_index < i → log.delete_entries_to i = none) := by
  constructor
  · intro h1 h2
    have hne : i ≠ log.prev_index := by omega
    have hidx : i - log.prev_index - 1 < log.entries.length := by
      unfold raft_log_t.get_latest_index at h2
      omega
    have hterm : log.get_entry_term i =
        some (log.entries[i - log.prev_index - 1]).term := by
      simp [raft_log_t.get_entry_term, raft_log_t.get_entry_ref,
        Nat.le_of_lt h1, h1, h2, hne, List.getElem?_eq_getElem hidx]
    refine ⟨?_, ?_, ?_, ?_⟩ <;>
      simp [raft_log_t.delete_entries_to, h1, h2, hterm]
  · intro h
    have hc : ¬ (log.prev_index < i ∧ i ≤ log.get_latest_index) := by omega
    simp [raft_log_t.delete_entries_to, hc]

/-- Witness for C4, truncating `sampleLog`'s prefix up to index 3. -/
theorem log_delete_entries_to_spec_witness :
    (sampleLog.delete_entries_to 3).isSome = true ∧
    (sampleLog.delete_entries_to 3).map raft_log_t.prev_index = some 3 ∧
    (sampleLog.delete_entries_to 3).map raft_log_t.prev_term =
      sampleLog.get_entry_term 3 ∧
    (sampleLog.delete_entries_to 3).map raft_log_t.entries =
      some (sampleLog.entries.drop (3 - sampleLog.prev_index)) :=
  (log_delete_entries_to_spec sampleLog 3).1 (by decide) (by decide)

/-- Claim C9: when `delete_entries_to i` succeeds, it preserves
`get_latest_index`, and every index `j` with `i ≤ j ≤ get_latest_index` reads
the same term after the call as before it. -/
theorem log_delete_entries_to_preserves {change_t : Type}
    (log log' : raft_log_t change_t) (i : Nat) :
    log.delete_entries_to i = some log' →
    log'.get_latest_index = log.get_latest_index ∧
    ∀ j, i ≤ j → j ≤ log.get_latest_index →
      log'.get_entry_term j = log.get_entry_term j := by
  intro h
  unfold raft_log_t.delete_entries_to at h
  by_cases hc : log.prev_index < i ∧ i ≤ log.get_latest_index
  · rw [if_pos hc] at h
    obtain ⟨h1, h2⟩ := hc
    rw [Option.map_eq_some'] at h
    obtain ⟨t, ht, rfl⟩ := h
    have h2' : i ≤ log.prev_index + log.entries.length := h2
    have hlat : (raft_log_t.mk i t
        (log.entries.drop (i - log.prev_index))).get_latest_index =
        log.get_latest_index := by
      simp [raft_log_t.get_latest_index, List.length_drop]
      omega
    refine ⟨hlat, ?_⟩
    intro j hj1 hj2
    rcases Nat.eq_or_lt_of_le hj1 with he | hlt
    · subst he
      have hl : (raft_log_t.mk i t
          (log.entries.drop (i - log.prev_index))).get_entry_term i =
          some t :=
        get_entry_term_at_prev _
      rw [hl, ht]
    · have hpj : log.prev_index < j := Nat.lt_trans h1 hlt
      have hj2' : j ≤ (raft_log_t.mk i t
          (log.entries.drop (i - log.prev_index))).get_latest_index := by
        rw [hlat]; exact hj2
      have hLterm : (raft_log_t.mk i t
          (log.entries.drop (i - log.prev_index))).get_entry_term j =
          ((log.entries.drop (i - log.prev_index))[j - i - 1]?).map
            raft_log_entry_t.term :=
        get_entry_term_in_range _ j hlt hj2'
      rw [hLterm, get_entry_term_in_range log j hpj hj2,
        List.getElem?_drop]
      have harith : i - log.prev_index + (j - i - 1) =
          j - log.prev_index - 1 := by
        omega
      rw [harith]
  · rw [if_neg hc] at h
    exact absurd h (by simp)

/-- Witness for C9: after truncating `sampleLog`'s prefix to index 3, index 4
reads the same term. -/
theorem log_delete_entries_to_preserves_witness :
    sampleLogTo3.get_entry_term 4 = sampleLog.get_entry_term 4 :=
  (log_delete_entries_to_preserves sampleLog sampleLogTo3 3 (by decide)).2 4
    (by decide) (by decide)

/-- Claim C5: for `prev_index < i ≤ get_latest_index`, `delete_entries_from i`
deletes the entry at `i` and every entry after it, so afterwards
`get_latest_index = i - 1`, while `prev_index`, `prev_term`, and every entry
at an index `< i` are unchanged. -/
theorem log_delete_entries_from_spec {change_t : Type}
    (log : raft_log_t change_t) (i : Nat) :
    log.prev_index < i → i ≤ log.get_latest_index →
    (log.delete_entries_from i).isSome = true ∧
    (log.delete_entries_from i).map raft_log_t.get_latest_index =
      some (i - 1) ∧
    (log.delete_entries_from i).map raft_log_t.prev_index =
      some log.prev_index ∧
    (log.delete_entries_from i).map raft_log_t.prev_term =
      some log.prev_term ∧
    ∀ j, j < i →
      (log.delete_entries_from i).map (fun l => l.get_entry_ref j) =
        some (log.get_entry_ref j) := by
  intro h1 h2
  have h2' : i ≤ log.prev_index + log.entries.length := h2
  have hlen : i - log.prev_index - 1 ≤ log.entries.length := by omega
  have hres : log.delete_entries_from i =
      some { log with entries := log.entries.take (i - log.prev_index - 1) } := by
    simp [raft_log_t.delete_entries_from, h1, h2]
  rw [hres]
  refine ⟨rfl, ?_, rfl, rfl, ?_⟩
  · simp [raft_log_t.get_latest_index, List.length_take_of_le hlen]
    omega
  · intro j hj
    simp only [Option.map_some', Option.some.injEq]
    by_cases hjp : log.prev_index < j
    · have hjlat : j ≤ log.get_latest_index := Nat.le_of_lt
        (Nat.lt_of_lt_of_le hj h2)
      have hjlat' : j ≤ log.prev_index +
          (log.entries.take (i - log.prev_index - 1)).length := by
        rw [List.length_take_of_le hlen]
        omega
      have hl : (raft_log_t.mk log.prev_index log.prev_term
          (log.entries.take (i - log.prev_index - 1))).get_entry_ref j =
          (log.entries.take (i - log.prev_index - 1))[j - log.prev_index - 1]? :=
        get_entry_ref_in_range _ j hjp hjlat'
      rw [hl, get_entry_ref_in_range log j hjp hjlat, List.getElem?_take,
        if_pos (show j - log.prev_index - 1 < i - log.prev_index - 1 by omega)]
    · simp [raft_log_t.get_entry_ref, hjp]

/-- Witness for C5, truncating `sampleLog`'s suffix from index 3: index 2 is
unchanged. -/
theorem log_delete_entries_from_spec_witness :
    (sampleLog.delete_entries_from 3).map (fun l => l.get_entry_ref 2) =
      some (sampleLog.get_entry_ref 2) :=
  (log_delete_entries_from_spec sampleLog 3 (by decide) (by decide)).2.2.2.2 2
    (by decide)

/-- Claim C10: `append e` leaves `prev_index`, `prev_term` and all previously
stored entries unchanged, increases `get_latest_index` by exactly one, and
makes `e` the entry readable at the new latest index. -/
theorem log_append_spec {change_t : Type} (log : raft_log_t change_t)
    (e : raft_log_entry_t change_t) :
    (log.append e).prev_index = log.prev_index ∧
    (log.append e).prev_term = log.prev_term ∧
    (log.append e).get_latest_index = log.get_latest_index + 1 ∧
    (log.append e).get_entry_ref (log.get_latest_index + 1) = some e ∧
    ∀ j, j ≤ log.get_latest_index →
      (log.append e).get_entry_ref j = log.get_entry_ref j := by
  have hlat : (log.append e).get_latest_index = log.get_latest_index + 1 := by
    simp [raft_log_t.append, raft_log_t.get_latest_index]
    omega
  refine ⟨rfl, rfl, hlat, ?_, ?_⟩
  · have h1 : log.prev_index < log.get_latest_index + 1 := by
      unfold raft_log_t.get_latest_index
      omega
    have h2 : log.get_latest_index + 1 ≤ (log.append e).get_latest_index := by
      rw [hlat]
    rw [get_entry_ref_in_range (log.append e) (log.get_latest_index + 1) h1 h2]
    simp only [raft_log_t.append]
    have hidx : log.get_latest_index + 1 - log.prev_index - 1 =
        log.entries.length := by
      unfold raft_log_t.get_latest_index
      omega
    rw [hidx, List.getElem?_concat_length]
  · intro j hj
    by_cases hjp : log.prev_index < j
    · have hj2 : j ≤ (log.append e).get_latest_index := by
        rw [hlat]
        omega
      have hj' : j ≤ log.prev_index + log.entries.length := hj
      have hidx : j - log.prev_index - 1 < log.entries.length := by omega
      rw [get_entry_ref_in_range (log.append e) j hjp hj2,
        get_entry_ref_in_range log j hjp hj]
      simp only [raft_log_t.append]
      rw [List.getElem?_append_left hidx]
    · simp [raft_log_t.get_entry_ref, raft_log_t.append, hjp]

/-- Witness for C10, appending an entry to `sampleLog`: index 2 is
unchanged. -/
theorem log_append_spec_witness :
    (sampleLog.append (nEntry 4)).get_entry_ref 2 =
      sampleLog.get_entry_ref 2 :=
  (log_append_spec sampleLog (nEntry 4)).2.2.2.2 2 (by decide)

/-- Claim C7: `make_initial` returns current term 0, nil vote, the given
snapshot state, a single complex configuration holding the given
configuration, and an empty log based at index 0 with term 0; being a pure
function of its arguments, the result is the same for every founding member
given equal inputs. -/
theorem make_initial_spec {state_t change_t : Type} (s : state_t)
    (c : raft_config_t) :
    @raft_persistent_state_t.make_initial state_t change_t s c =
      { current_term := 0
        voted_for := none
        snapshot_state := s
        snapshot_config := { config := c, new_config := none }
        log := { prev_index := 0, prev_term := 0, entries := [] } } :=
  rfl

end RaftCore
